import Mathlib

set_option maxRecDepth 100000
set_option maxHeartbeats 4000000

/-!
Shallow embedding of the split-word repair / sentence reconstruction routine
of the reader repository (`fixSplitWordsWithWordList`, `formatSentence`, and
the POST handler that iterates the repair `1 + MAX_ITERATIONS` times).

Strings are modelled as `List Char` internally; the top-level entry points
take and return `String`.  The word dictionary (loaded in the source from an
external word-list resource and queried only through membership) is passed
explicitly as a `List String` parameter, with lookups on the lowercased form,
mirroring `wordSet.has`.  Character classes follow the JavaScript semantics
used by the source: `\s` for whitespace collapsing and trimming, `\w` for the
word-boundary tokenisation `text.split(/\b/)`, and ASCII case conversion
(the merge guard only ever lowercases tokens matching `^[a-zA-Z]+$`).
-/

namespace Reader

/-- JavaScript `\s` character class (whitespace as matched by `/\s{2,}/` and
removed by `String.prototype.trim`). -/
def jsWs (c : Char) : Bool :=
  c == ' ' || c == Char.ofNat 9 || c == Char.ofNat 10 || c == Char.ofNat 11 ||
  c == Char.ofNat 12 || c == Char.ofNat 13 || c == Char.ofNat 0xa0 ||
  c == Char.ofNat 0x1680 ||
  (0x2000 ≤ c.toNat && c.toNat ≤ 0x200a) ||
  c == Char.ofNat 0x2028 || c == Char.ofNat 0x2029 || c == Char.ofNat 0x202f ||
  c == Char.ofNat 0x205f || c == Char.ofNat 0x3000 || c == Char.ofNat 0xfeff

/-- JavaScript `\w` character class, which determines the `\b` boundaries used
by `text.split(/\b/)`. -/
def isWordChar (c : Char) : Bool :=
  (Char.ofNat 97 ≤ c && c ≤ Char.ofNat 122) ||
  (Char.ofNat 65 ≤ c && c ≤ Char.ofNat 90) ||
  (Char.ofNat 48 ≤ c && c ≤ Char.ofNat 57) || c == '_'

/-- ASCII letter, the character class of the merge guard `^[a-zA-Z]+$`. -/
def isAsciiLetter (c : Char) : Bool :=
  (Char.ofNat 97 ≤ c && c ≤ Char.ofNat 122) ||
  (Char.ofNat 65 ≤ c && c ≤ Char.ofNat 90)

/-- Fuel-driven worker for `collapseWs`; the fuel is the length of the list,
which bounds the recursion depth. -/
def collapseGo : Nat → List Char → List Char
  | 0, l => l
  | _ + 1, [] => []
  | fuel + 1, c :: rest =>
    if jsWs c && (match rest with | d :: _ => jsWs d | [] => false) then
      ' ' :: collapseGo fuel (rest.dropWhile jsWs)
    else
      c :: collapseGo fuel rest

/-- `text.replace(/\s{2,}/g, ' ')`: every run of two or more whitespace
characters becomes a single space; isolated whitespace characters are kept. -/
def collapseWs (l : List Char) : List Char :=
  collapseGo l.length l

/-- Fuel-driven worker for `jsSplitB`: chops a non-empty list into maximal
runs of characters agreeing on `isWordChar`. -/
def splitRunsGo : Nat → List Char → List (List Char)
  | 0, _ => []
  | _ + 1, [] => []
  | fuel + 1, c :: rest =>
    (c :: rest.takeWhile (fun d => isWordChar d == isWordChar c)) ::
      splitRunsGo fuel (rest.dropWhile (fun d => isWordChar d == isWordChar c))

/-- `text.split(/\b/)`: split at word boundaries.  A `\b` match occurs exactly
at transitions between `\w` and non-`\w` characters, so the result is the list
of maximal runs of characters of equal `isWordChar` class; on the empty string
JavaScript `split` returns `[""]`. -/
def jsSplitB (l : List Char) : List (List Char) :=
  match l with
  | [] => [[]]
  | _ => splitRunsGo l.length l

/-- `String.prototype.trimEnd`. -/
def jsTrimEnd (l : List Char) : List Char :=
  (l.reverse.dropWhile jsWs).reverse

/-- `String.prototype.trim`. -/
def jsTrim (l : List Char) : List Char :=
  jsTrimEnd (l.dropWhile jsWs)

/-- The test `/^[a-zA-Z]+$/.test tok`: non-empty and all ASCII letters. -/
def isAlphaTok (l : List Char) : Bool :=
  !l.isEmpty && l.all isAsciiLetter

/-- `tok.toLowerCase()` (applied by the source only to ASCII-letter tokens). -/
def lowerTok (l : List Char) : List Char :=
  l.map Char.toLower

/-- The punctuation array of `formatSentence`. -/
def punctuation : List (List Char) :=
  [['.'], ['!'], ['?'], [','], [';'], [':'], [Char.ofNat 39], ['-']]

/-- `word.charAt(0).toUpperCase() + word.slice(1)`. -/
def capFirst : List Char → List Char
  | [] => []
  | c :: cs => c.toUpper :: cs

/-- The token loop of `formatSentence`: `i` is the loop index, `sentence` the
accumulated buffer. -/
def formatGo : Nat → List Char → List (List Char) → List Char
  | _, sentence, [] => sentence
  | i, sentence, w :: ws =>
    formatGo (i + 1)
      (if w ∈ punctuation then jsTrimEnd sentence ++ w
       else if i = 0 then sentence ++ capFirst w
       else sentence ++ (' ' :: w)) ws

/-- The terminal-punctuation array `['.', '!', '?']`. -/
def terminalPunct : List Char := ['.', '!', '?']

/-- `['.','!','?'].includes(sentence[sentence.length - 1])`; on the empty
buffer the indexing yields `undefined`, which is not in the array. -/
def hasTerminalEnd (s : List Char) : Bool :=
  match s.getLast? with
  | some c => decide (c ∈ terminalPunct)
  | none => false

/-- `formatSentence`: join tokens into a sentence, attaching punctuation to
the previous word, capitalising the first token, and guaranteeing terminal
punctuation. -/
def formatSentence (ws : List (List Char)) : List Char :=
  if ws = [] then []
  else if hasTerminalEnd (formatGo 0 [] ws) then formatGo 0 [] ws
  else formatGo 0 [] ws ++ ['.']

/-- The token-merging scan of `fixSplitWordsWithWordList`: `current` is
`tokens[i].trim()`, `next` is `tokens[i+1]?.trim?.()`; on a merge both tokens
are consumed, otherwise only the current one. -/
def mergeTokens (dict : List String) : List (List Char) → List (List Char)
  | [] => []
  | [t] => [jsTrim t]
  | t :: u :: rest =>
    if jsTrim u ≠ [] ∧ isAlphaTok (jsTrim t) = true ∧ isAlphaTok (jsTrim u) = true ∧
        String.mk (lowerTok (jsTrim t)) ∉ dict then
      if String.mk (lowerTok (jsTrim t ++ jsTrim u)) ∈ dict then
        (jsTrim t ++ jsTrim u) :: mergeTokens dict rest
      else
        jsTrim t :: mergeTokens dict (u :: rest)
    else
      jsTrim t :: mergeTokens dict (u :: rest)

/-- `fixSplitWordsWithWordList`: collapse whitespace, split at `\b`, drop the
tokens that are exactly a single space, merge split words, format. -/
def fixSplitWordsWithWordList (dict : List String) (text : String) : String :=
  String.mk (formatSentence (mergeTokens dict
    ((jsSplitB (collapseWs text.toList)).filter (fun t => t ≠ [' ']))))

/-- `const MAX_ITERATIONS = 3`. -/
def MAX_ITERATIONS : Nat := 3

/-- The repair performed by the POST handler: one application of
`fixSplitWordsWithWordList` followed by `MAX_ITERATIONS` further applications
to the previous output. -/
def repairText (dict : List String) (text : String) : String :=
  (List.range MAX_ITERATIONS).foldl
    (fun acc _ => fixSplitWordsWithWordList dict acc)
    (fixSplitWordsWithWordList dict text)

/-- Spec-side description of the orchestration (for the refinement claim C3):
the pipeline is applied once and then exactly 3 more times, each time to the
previous iteration's output string. -/
def repairSpecFourPasses (dict : List String) (text : String) : String :=
  fixSplitWordsWithWordList dict
    (fixSplitWordsWithWordList dict
      (fixSplitWordsWithWordList dict
        (fixSplitWordsWithWordList dict text)))

/-- Dictionary exhibiting a 17-deep suffix chain: a word split into 18 pieces
needs 17 single passes to reassemble, more than the 16 single passes performed
by 4 applications of `repairText`. -/
def dictChain : List String :=
  ["qr", "pqr", "opqr", "nopqr", "mnopqr", "lmnopqr", "klmnopqr",
   "jklmnopqr", "ijklmnopqr", "hijklmnopqr", "ghijklmnopqr", "fghijklmnopqr",
   "efghijklmnopqr", "defghijklmnopqr", "cdefghijklmnopqr",
   "bcdefghijklmnopqr", "abcdefghijklmnopqr"]

/-- An 18-way split of the word `abcdefghijklmnopqr`. -/
def inputChain : String := "a b c d e f g h i j k l m n o p q r"

end Reader

namespace Reader

/-- Unfolding of the orchestration loop: the `foldl` over `List.range 3` is
definitionally three further applications of the pipeline. -/
theorem repairText_unfold (dict : List String) (text : String) :
    repairText dict text =
      fixSplitWordsWithWordList dict (fixSplitWordsWithWordList dict
        (fixSplitWordsWithWordList dict (fixSplitWordsWithWordList dict text))) :=
  rfl

/-- An `^[a-zA-Z]+$` token is non-empty. -/
theorem alphaTok_ne_nil (l : List Char) (h : isAlphaTok l = true) : l ≠ [] := by
  cases l with
  | nil => simp [isAlphaTok] at h
  | cons c cs => simp

/-- The merge scan preserves the characters of the trimmed tokens, in order. -/
theorem merge_join (dict : List String) : (ts : List (List Char)) →
    (mergeTokens dict ts).flatten = (ts.map jsTrim).flatten
  | [] => by simp [mergeTokens]
  | [t] => by simp [mergeTokens]
  | t :: u :: ts => by
    have ih1 := merge_join dict ts
    have ih2 := merge_join dict (u :: ts)
    simp only [mergeTokens]
    split
    · split
      · simp [ih1, List.append_assoc]
      · simpa using ih2
    · simpa using ih2

/-- The merge scan never emits more tokens than it consumes. -/
theorem merge_length (dict : List String) : (ts : List (List Char)) →
    (mergeTokens dict ts).length ≤ ts.length
  | [] => by simp [mergeTokens]
  | [t] => by simp [mergeTokens]
  | t :: u :: ts => by
    have ih1 := merge_length dict ts
    have ih2 := merge_length dict (u :: ts)
    simp only [mergeTokens]
    split
    · split
      · simpa using Nat.le_succ_of_le (Nat.succ_le_succ ih1)
      · simpa using Nat.succ_le_succ ih2
    · simpa using Nat.succ_le_succ ih2

/-- Claim C1 counterexample: `repairText` on the empty string does not return
the empty string; with the empty dictionary it returns a lone period, because
`"".split(/\b/)` yields `[""]` and the sentence formatter appends a terminal
period to the empty buffer. -/
theorem c1_counterexample :
    repairText [] "" = "." ∧ ¬ (repairText [] "" = "") := by
  decide

/-- Claim C1 (amended): for every dictionary, `repairText` applied to the
empty string returns the one-character string consisting of a period. -/
theorem c1_empty_amended (dict : List String) : repairText dict "" = "." := by
  have h1 : fixSplitWordsWithWordList dict "" = "." := rfl
  have h2 : fixSplitWordsWithWordList dict "." = "." := rfl
  rw [repairText_unfold, h1, h2, h2, h2]

/-- Claim C2: one step of the left-to-right merge scan merges exactly when the
next token exists, the trimmed current and next tokens are pure ASCII-letter
words, the current token lowercased is not in the dictionary, and the
lowercased concatenation is; it then emits the concatenation with original
casing and advances past both tokens, and in every other case it emits the
trimmed current token and advances by one. -/
theorem c2_merge_step (dict : List String) (t u : List Char)
    (ts : List (List Char)) :
    mergeTokens dict [] = [] ∧
    mergeTokens dict [t] = [jsTrim t] ∧
    mergeTokens dict (t :: u :: ts) =
      (if isAlphaTok (jsTrim t) = true ∧ isAlphaTok (jsTrim u) = true ∧
          String.mk (lowerTok (jsTrim t)) ∉ dict ∧
          String.mk (lowerTok (jsTrim t ++ jsTrim u)) ∈ dict
       then (jsTrim t ++ jsTrim u) :: mergeTokens dict ts
       else jsTrim t :: mergeTokens dict (u :: ts)) := by
  refine ⟨rfl, rfl, ?_⟩
  by_cases hQ : isAlphaTok (jsTrim t) = true ∧ isAlphaTok (jsTrim u) = true ∧
      String.mk (lowerTok (jsTrim t)) ∉ dict ∧
      String.mk (lowerTok (jsTrim t ++ jsTrim u)) ∈ dict
  · obtain ⟨hA, hB, hC, hD⟩ := hQ
    rw [if_pos ⟨hA, hB, hC, hD⟩]
    simp only [mergeTokens]
    rw [if_pos ⟨alphaTok_ne_nil _ hB, hA, hB, hC⟩, if_pos hD]
  · rw [if_neg hQ]
    simp only [mergeTokens]
    by_cases hP : jsTrim u ≠ [] ∧ isAlphaTok (jsTrim t) = true ∧
        isAlphaTok (jsTrim u) = true ∧ String.mk (lowerTok (jsTrim t)) ∉ dict
    · rw [if_pos hP]
      have hD : String.mk (lowerTok (jsTrim t ++ jsTrim u)) ∉ dict :=
        fun hd => hQ ⟨hP.2.1, hP.2.2.1, hP.2.2.2, hd⟩
      rw [if_neg hD]
    · rw [if_neg hP]

/-- Claim C3: the repair performed by the POST handler (one application of the
pipeline followed by a loop of `MAX_ITERATIONS = 3` further applications)
equals the 4-fold composition of the single-pass pipeline. -/
theorem c3_repair_is_four_passes (dict : List String) (text : String) :
    repairText dict text = repairSpecFourPasses dict text := by
  rw [repairText_unfold]
  rfl

/-- Claim C4 counterexample: a word split into 18 pieces over a dictionary
with a 17-deep suffix chain is still changing at the 5th application of
`repairText`: the 4th application yields a string that one more application
still modifies, so the 4-pass total is not a saturation point in general. -/
theorem c4_counterexample :
    ¬ (repairText dictChain (repairText dictChain (repairText dictChain
         (repairText dictChain (repairText dictChain inputChain)))) =
       repairText dictChain (repairText dictChain (repairText dictChain
         (repairText dictChain inputChain)))) := by
  decide

/-- Claim C4 (amended): the 5th application of `repairText` agrees with the
4th whenever one further single pass of the pipeline leaves the 4th output
unchanged (i.e. when the 16 single passes of four repair applications have
already saturated); this hypothesis holds for realistic inputs but not for
all inputs. -/
theorem c4_saturation_conditional (dict : List String) (x : String)
    (h : fixSplitWordsWithWordList dict
           (repairText dict (repairText dict (repairText dict (repairText dict x)))) =
         repairText dict (repairText dict (repairText dict (repairText dict x)))) :
    repairText dict
        (repairText dict (repairText dict (repairText dict (repairText dict x)))) =
      repairText dict (repairText dict (repairText dict (repairText dict x))) := by
  rw [repairText_unfold dict
    (repairText dict (repairText dict (repairText dict (repairText dict x))))]
  rw [h, h, h, h]

/-- Witness for the amended claim C4 at the concrete input `hi` with the empty
dictionary. -/
theorem c4_saturation_witness :
    repairText [] (repairText [] (repairText [] (repairText [] (repairText [] "hi")))) =
      repairText [] (repairText [] (repairText [] (repairText [] "hi"))) :=
  c4_saturation_conditional [] "hi" (by decide)

/-- Claim C5: for every non-empty token list the formatted sentence ends in
terminal punctuation; the final period is appended exactly when the built
buffer does not already end in one; and `Stop` followed by `!` formats to
`Stop!` with no extra period. -/
theorem c5_terminal_punctuation :
    (∀ ws : List (List Char), ws ≠ [] →
        ∃ c, (formatSentence ws).getLast? = some c ∧ c ∈ terminalPunct) ∧
    (∀ ws : List (List Char), ws ≠ [] →
        (formatSentence ws = formatGo 0 [] ws ++ ['.'] ↔
         hasTerminalEnd (formatGo 0 [] ws) = false)) ∧
    formatSentence [String.toList "Stop", ['!']] = String.toList "Stop!" := by
  refine ⟨?_, ?_, by decide⟩
  · intro ws hws
    by_cases hT : hasTerminalEnd (formatGo 0 [] ws) = true
    · have hfs : formatSentence ws = formatGo 0 [] ws := by
        rw [formatSentence, if_neg hws, if_pos hT]
      revert hT
      unfold hasTerminalEnd
      cases hE : (formatGo 0 [] ws).getLast? with
      | none => simp
      | some c =>
        intro hT
        exact ⟨c, by rw [hfs, hE], of_decide_eq_true hT⟩
    · have hfs : formatSentence ws = formatGo 0 [] ws ++ ['.'] := by
        rw [formatSentence, if_neg hws, if_neg hT]
      refine ⟨'.', ?_, by decide⟩
      rw [hfs]
      simp
  · intro ws hws
    constructor
    · intro heq
      by_cases hT : hasTerminalEnd (formatGo 0 [] ws) = true
      · exfalso
        have hfs : formatSentence ws = formatGo 0 [] ws := by
          rw [formatSentence, if_neg hws, if_pos hT]
        rw [hfs] at heq
        have := congrArg List.length heq
        simp at this
      · simpa using hT
    · intro hT
      rw [formatSentence, if_neg hws, if_neg (by simp [hT])]

/-- Witness for claim C5 at the concrete token list `[Hi]`. -/
theorem c5_terminal_witness :
    (∃ c, (formatSentence [['H', 'i']]).getLast? = some c ∧ c ∈ terminalPunct) ∧
    (formatSentence [['H', 'i']] = formatGo 0 [] [['H', 'i']] ++ ['.'] ↔
     hasTerminalEnd (formatGo 0 [] [['H', 'i']]) = false) :=
  ⟨c5_terminal_punctuation.1 [['H', 'i']] (by decide),
   c5_terminal_punctuation.2.1 [['H', 'i']] (by decide)⟩

/-- Claim C6: a punctuation token is appended after stripping trailing
whitespace from the buffer and with no leading space; the token at index 0,
when not punctuation, is appended with its first character upper-cased; every
later non-punctuation token is preceded by exactly one space; and the tokens
`Hello`, `,`, `world` format to `Hello, world.`. -/
theorem c6_formatting_rules :
    (∀ (i : Nat) (s w : List Char) (ws : List (List Char)),
        w ∈ punctuation →
        formatGo i s (w :: ws) = formatGo (i + 1) (jsTrimEnd s ++ w) ws) ∧
    (∀ (s w : List Char) (ws : List (List Char)),
        w ∉ punctuation →
        formatGo 0 s (w :: ws) = formatGo 1 (s ++ capFirst w) ws) ∧
    (∀ (i : Nat) (s w : List Char) (ws : List (List Char)),
        w ∉ punctuation → i ≠ 0 →
        formatGo i s (w :: ws) = formatGo (i + 1) (s ++ (' ' :: w)) ws) ∧
    formatSentence [String.toList "Hello", [','], String.toList "world"] =
      String.toList "Hello, world." := by
  refine ⟨?_, ?_, ?_, by decide⟩
  · intro i s w ws h
    simp only [formatGo]
    rw [if_pos h]
  · intro s w ws h
    simp only [formatGo]
    rw [if_neg h]
    simp
  · intro i s w ws h hi
    simp only [formatGo]
    rw [if_neg h, if_neg hi]

/-- Witness for claim C6: each formatting rule applied at a concrete input. -/
theorem c6_formatting_witness :
    formatGo 0 ['x', ' '] [[',']] = formatGo 1 (jsTrimEnd ['x', ' '] ++ [',']) [] ∧
    formatGo 0 [] [['h', 'i']] = formatGo 1 ([] ++ capFirst ['h', 'i']) [] ∧
    formatGo 2 ['A'] [['b']] = formatGo 3 (['A'] ++ (' ' :: ['b'])) [] :=
  ⟨c6_formatting_rules.1 0 ['x', ' '] [','] [] (by decide),
   c6_formatting_rules.2.1 [] ['h', 'i'] [] (by decide),
   c6_formatting_rules.2.2.1 2 ['A'] ['b'] [] (by decide) (by decide)⟩

/-- Claim C7: a token whose trimmed, lowercased form is already in the
dictionary is never merged forward with its successor; and with the dictionary
containing `a` and `cat`, repairing `a cat` yields `A cat.` and never `acat`. -/
theorem c7_no_false_merge :
    (∀ (dict : List String) (t u : List Char) (ts : List (List Char)),
        String.mk (lowerTok (jsTrim t)) ∈ dict →
        mergeTokens dict (t :: u :: ts) = jsTrim t :: mergeTokens dict (u :: ts)) ∧
    repairText ["a", "cat"] "a cat" = "A cat." := by
  refine ⟨?_, by decide⟩
  intro dict t u ts hmem
  simp only [mergeTokens]
  rw [if_neg (fun hP => hP.2.2.2 hmem)]

/-- Witness for claim C7: the guard fires for the dictionary word `a`. -/
theorem c7_no_false_merge_witness :
    mergeTokens ["a"] [['a'], ['x']] = jsTrim ['a'] :: mergeTokens ["a"] [['x']] :=
  c7_no_false_merge.1 ["a"] ['a'] ['x'] [] (by decide)

/-- Claim C8: whitespace collapsing maps `hello   world` (three spaces) and
`hello world` (one space) to the same character list, preserving the single
space, so for every dictionary the full repair treats the two inputs
identically. -/
theorem c8_whitespace_collapse :
    collapseWs (String.toList "hello   world") = String.toList "hello world" ∧
    collapseWs (String.toList "hello world") = String.toList "hello world" ∧
    ∀ dict : List String,
      repairText dict "hello   world" = repairText dict "hello world" := by
  refine ⟨by decide, by decide, ?_⟩
  intro dict
  have ht : (jsSplitB (collapseWs (String.toList "hello   world"))).filter
        (fun t => t ≠ [' ']) =
      (jsSplitB (collapseWs (String.toList "hello world"))).filter
        (fun t => t ≠ [' ']) := by decide
  have hfix : fixSplitWordsWithWordList dict "hello   world" =
      fixSplitWordsWithWordList dict "hello world" := by
    unfold fixSplitWordsWithWordList
    rw [ht]
  rw [repairText_unfold, repairText_unfold, hfix]

/-- Claim C9: totality.  `repairText` is a total function: for every
dictionary and every input string it terminates and returns a string — the
whole embedding is built from total definitions with no error branch. -/
theorem c9_totality (dict : List String) (s : String) :
    ∃ r : String, repairText dict s = r :=
  ⟨repairText dict s, rfl⟩

/-- Claim C10: the merge pass never inserts, deletes or reorders characters —
its output concatenates to exactly the concatenation of the trimmed input
tokens — and it never emits more tokens than it was given. -/
theorem c10_merge_preserves_characters (dict : List String)
    (ts : List (List Char)) :
    (mergeTokens dict ts).flatten = (ts.map jsTrim).flatten ∧
    (mergeTokens dict ts).length ≤ ts.length :=
  ⟨merge_join dict ts, merge_length dict ts⟩

end Reader
